import Mathlib

/-!
Verification of the session / multiplayer-cache core of the Quaver "Z" server.

The development shallowly embeds the Go source:

* `sessions` packet sending (`SendPacketToConnection`, `SendPacketToUser`,
  `SendPacketToUsers`): JSON marshalling is modelled by an `Option Bytes`
  argument holding the (deterministic) result of the one `json.Marshal`
  call each `SendPacketToConnection` invocation performs, with `none`
  standing for a marshalling error; each invocation records that it
  performed exactly one marshalling via a `serializations` counter.
* `sessions.User`: `SetStats` (the loop over game modes reading from the
  persistent store), `IsMuted`, `SetClientStatus`/`GetClientStatus`
  (events such as lock acquisition, status assignment and the Redis write
  are recorded in an explicit trace), and the Redis key builders.
* `multiplayer` Redis caching: the Redis instance is modelled as an
  association list from keys to field/value hashes; `HSet` upserts every
  given field into the hash at a key (Redis merge semantics) and `Del`
  removes the whole record.  Fallibility of a Redis call is modelled by an
  explicit boolean argument.

Functions of this repository that live outside the embedded files
(`utils.BoolToInt`, `utils.Includes`, `utils.Find`) are modelled from the
specification's wording and marked as such; external collaborators
(`db.GetUserStats`, `sessions.GetUserById`, the float formatter
`strconv.FormatFloat`) are taken as parameters.
-/

namespace Z

/-! ### Packet broadcasting (`SendPacketToConnection` and friends) -/

/-- Serialized packet bytes (the result of JSON marshalling). -/
abbrev Bytes := List Nat

/-- Model of one live connection: whether a frame write on it currently
fails, and the frames successfully delivered to it so far. -/
structure ConnState where
  writeFails : Bool
  received : List Bytes
deriving DecidableEq, Repr

/-- Log messages emitted by the send path. -/
inductive LogMsg where
  | serializeError
  | writeError
  | sent (b : Bytes)
deriving DecidableEq, Repr

/-- Outcome of sending one packet to one connection: the connection's new
state, the log lines produced, and how many times the payload was
serialized during the call. -/
structure SendOutcome where
  conn : ConnState
  logs : List LogMsg
  serializations : Nat
deriving DecidableEq, Repr

/-- `SendPacketToConnection` marshals the payload (one `json.Marshal`
call, hence `serializations := 1` in every branch; `marshalled` is its
deterministic result, `none` on error), logs and returns on a marshal
error, writes one text frame, logs and returns on a write error, and
otherwise logs the sent frame. -/
def SendPacketToConnection (marshalled : Option Bytes) (conn : ConnState) : SendOutcome :=
  match marshalled with
  | none => { conn := conn, logs := [.serializeError], serializations := 1 }
  | some j =>
    if conn.writeFails then
      { conn := conn, logs := [.writeError], serializations := 1 }
    else
      { conn := { conn with received := conn.received ++ [j] }
        logs := [.sent j], serializations := 1 }

/-- `SendPacketToUser` forwards to `SendPacketToConnection` on the user's
connection. -/
def SendPacketToUser (marshalled : Option Bytes) (conn : ConnState) : SendOutcome :=
  SendPacketToConnection marshalled conn

/-- Combined outcome of sending one packet to a list of recipients. -/
structure ManyOutcome where
  conns : List ConnState
  logs : List LogMsg
  serializations : Nat
deriving DecidableEq, Repr

/-- `SendPacketToUsers` loops over the users, sending the packet to each
one in turn via `SendPacketToUser`. -/
def SendPacketToUsers (marshalled : Option Bytes) : List ConnState → ManyOutcome
  | [] => { conns := [], logs := [], serializations := 0 }
  | c :: rest =>
    let o := SendPacketToUser marshalled c
    let r := SendPacketToUsers marshalled rest
    { conns := o.conn :: r.conns
      logs := o.logs ++ r.logs
      serializations := o.serializations + r.serializations }

theorem SendPacketToConnection_serializations (m : Option Bytes) (c : ConnState) :
    (SendPacketToConnection m c).serializations = 1 := by
  cases m with
  | none => rfl
  | some j =>
    by_cases h : c.writeFails <;> simp [SendPacketToConnection, h]

theorem SendPacketToUsers_conns (m : Option Bytes) (conns : List ConnState) :
    (SendPacketToUsers m conns).conns
      = conns.map fun c => (SendPacketToConnection m c).conn := by
  induction conns with
  | nil => rfl
  | cons c rest ih => simp [SendPacketToUsers, SendPacketToUser, ih]

theorem SendPacketToUsers_serializations (m : Option Bytes) (conns : List ConnState) :
    (SendPacketToUsers m conns).serializations = conns.length := by
  induction conns with
  | nil => rfl
  | cons c rest ih =>
    simp [SendPacketToUsers, SendPacketToUser, SendPacketToConnection_serializations, ih]
    omega

/-- C2, counterexample: with two recipients whose writes both succeed,
`SendPacketToUsers` serializes the payload twice (once per recipient via
`SendPacketToConnection`), not exactly once as claimed. -/
theorem SendPacketToUsers_two_recipients_two_serializations :
    (SendPacketToUsers (some [0]) [⟨false, []⟩, ⟨false, []⟩]).serializations ≠ 1 := by
  decide

/-- C2 (amended): for every payload and every list of recipients,
`SendPacketToUsers` serializes the payload once per recipient (the count
of serializations equals the number of recipients), and each recipient's
connection is written independently: every recipient whose write succeeds
receives exactly the marshalled bytes of the payload, appended to its
stream, and a failing recipient's state is unchanged. -/
theorem SendPacketToUsers_serializes_per_recipient (j : Bytes) (conns : List ConnState) :
    (SendPacketToUsers (some j) conns).serializations = conns.length ∧
    (SendPacketToUsers (some j) conns).conns
      = conns.map fun c =>
          if c.writeFails then c else { c with received := c.received ++ [j] } := by
  refine ⟨SendPacketToUsers_serializations _ _, ?_⟩
  rw [SendPacketToUsers_conns]
  refine List.map_congr_left fun c _ => ?_
  by_cases h : c.writeFails <;> simp [SendPacketToConnection, h]

/-- C3: per-recipient failure isolation in `SendPacketToUsers`.  The final
state of each recipient depends only on that recipient (so one recipient's
serialization or write failure never prevents the attempt on the others),
and concretely for recipients `A` then `B` where `A`'s write fails, `B`
still receives the frame while the failure of `A` is reported only as a
log line; the function is total and returns no error to the caller. -/
theorem SendPacketToUsers_failure_isolated (j : Bytes) (conns : List ConnState)
    (A B : ConnState) (hA : A.writeFails = true) (hB : B.writeFails = false) :
    ((SendPacketToUsers (some j) conns).conns
        = conns.map fun c => (SendPacketToConnection (some j) c).conn) ∧
    (SendPacketToUsers (some j) [A, B]).conns
        = [A, { B with received := B.received ++ [j] }] ∧
    LogMsg.writeError ∈ (SendPacketToUsers (some j) [A, B]).logs := by
  refine ⟨SendPacketToUsers_conns _ _, ?_, ?_⟩ <;>
    simp [SendPacketToUsers, SendPacketToUser, SendPacketToConnection, hA, hB]

/-- C3 witness: a concrete failing recipient followed by a succeeding one. -/
theorem SendPacketToUsers_failure_isolated_witness :
    (SendPacketToUsers (some [7]) [⟨true, []⟩, ⟨false, []⟩]).conns
      = [⟨true, []⟩, ⟨false, [[7]]⟩] :=
  (SendPacketToUsers_failure_isolated [7] [] ⟨true, []⟩ ⟨false, []⟩ rfl rfl).2.1

/-! ### `User.SetStats` (sessions/user.go)

The persistent-store lookup `db.GetUserStats` is an external collaborator
and is passed in as `lookup : Nat → Except String Nat` (mode to stats
value, or an error); the stats snapshot itself is opaque and modelled as a
`Nat`.  The session's `stats` map is modelled as `Nat → Option Nat`.  The
enum bound `common.ModeEnumMaxValue` is a parameter `maxVal`. -/

/-- The loop body of `SetStats`: Go's
`for i := 1; i < maxVal; i++ { stats, err := lookup(i); if err != nil { return err }; u.stats[i] = stats }`,
written with the remaining iteration count as fuel.  The map is mutated in
place entry by entry; on a lookup error the loop returns immediately with
the map as mutated so far. -/
def setStatsLoop (lookup : Nat → Except String Nat) :
    Nat → Nat → (Nat → Option Nat) → (Nat → Option Nat) × Option String
  | 0, _, m => (m, none)
  | fuel + 1, i, m =>
    match lookup i with
    | .error e => (m, some e)
    | .ok s => setStatsLoop lookup fuel (i + 1) (fun k => if k = i then some s else m k)

/-- `SetStats` runs the lookup loop over modes `1, …, maxVal - 1`,
starting from the session's current stats map, and returns the final map
together with the error returned to the caller (`none` on success). -/
def SetStats (lookup : Nat → Except String Nat) (maxVal : Nat)
    (stats : Nat → Option Nat) : (Nat → Option Nat) × Option String :=
  setStatsLoop lookup (maxVal - 1) 1 stats

theorem setStatsLoop_all_ok (lookup : Nat → Except String Nat) :
    ∀ (fuel i : Nat) (m : Nat → Option Nat),
      (∀ j, i ≤ j → j < i + fuel → ∃ s, lookup j = .ok s) →
      (setStatsLoop lookup fuel i m).2 = none ∧
      (∀ j s, i ≤ j → j < i + fuel → lookup j = .ok s →
        (setStatsLoop lookup fuel i m).1 j = some s) ∧
      (∀ j, j < i ∨ i + fuel ≤ j → (setStatsLoop lookup fuel i m).1 j = m j) := by
  intro fuel
  induction fuel with
  | zero =>
    intro i m _
    refine ⟨rfl, fun j s h1 h2 _ => absurd h2 (by omega), fun j _ => rfl⟩
  | succ fuel ih =>
    intro i m h
    obtain ⟨s, hs⟩ := h i le_rfl (by omega)
    have hrec := ih (i + 1) (fun k => if k = i then some s else m k)
      (fun j hj1 hj2 => h j (by omega) (by omega))
    rw [setStatsLoop, hs]
    obtain ⟨h1, h2, h3⟩ := hrec
    refine ⟨h1, ?_, ?_⟩
    · intro j s' hj1 hj2 hok
      rcases Nat.eq_or_lt_of_le hj1 with hji | hji
      · rw [← hji] at hok ⊢
        rw [h3 i (Or.inl (by omega))]
        rw [hs] at hok
        simp_all
      · exact h2 j s' (by omega) (by omega) hok
    · intro j hj
      rw [h3 j (by omega)]
      have : j ≠ i := by omega
      simp [this]

theorem setStatsLoop_first_error (lookup : Nat → Except String Nat) :
    ∀ (fuel i : Nat) (m : Nat → Option Nat) (k : Nat) (e : String),
      i ≤ k → k < i + fuel → lookup k = .error e →
      (∀ j, i ≤ j → j < k → ∃ s, lookup j = .ok s) →
      (setStatsLoop lookup fuel i m).2 = some e ∧
      (∀ j s, i ≤ j → j < k → lookup j = .ok s →
        (setStatsLoop lookup fuel i m).1 j = some s) ∧
      (∀ j, j < i ∨ k ≤ j → (setStatsLoop lookup fuel i m).1 j = m j) := by
  intro fuel
  induction fuel with
  | zero =>
    intro i m k e hik hk
    exact absurd hk (by omega)
  | succ fuel ih =>
    intro i m k e hik hk he hok
    rcases Nat.eq_or_lt_of_le hik with hik' | hik'
    · subst hik'
      rw [setStatsLoop, he]
      exact ⟨rfl, fun j s h1 h2 _ => absurd h2 (by omega), fun j _ => rfl⟩
    · obtain ⟨s, hs⟩ := hok i le_rfl hik'
      rw [setStatsLoop, hs]
      have hrec := ih (i + 1) (fun l => if l = i then some s else m l) k e
        (by omega) (by omega) he (fun j hj1 hj2 => hok j (by omega) hj2)
      obtain ⟨h1, h2, h3⟩ := hrec
      refine ⟨h1, ?_, ?_⟩
      · intro j s' hj1 hj2 hok'
        rcases Nat.eq_or_lt_of_le hj1 with hji | hji
        · rw [← hji] at hok' ⊢
          rw [h3 i (Or.inl (by omega))]
          rw [hs] at hok'
          simp_all
        · exact h2 j s' (by omega) hj2 hok'
      · intro j hj
        rw [h3 j (by omega)]
        have : j ≠ i := by omega
        simp [this]

/-- C1, counterexample: with tracked modes `1, 2` (`maxVal = 3`), a lookup
that succeeds for mode 1 with stats `10` and fails for mode 2 makes
`SetStats` return the failure while the stored map has nevertheless been
mutated: mode 1's entry was replaced (it is `some 10`, whereas before the
call the map was empty, `none` at every mode), refuting the all-or-nothing
claim. -/
theorem SetStats_partial_mutation_on_failure :
    (SetStats (fun i => if i = 1 then .ok 10 else .error "boom") 3 (fun _ => none)).2
        = some "boom" ∧
    (SetStats (fun i => if i = 1 then .ok 10 else .error "boom") 3 (fun _ => none)).1 1
        = some 10 ∧
    (fun _ => (none : Option Nat)) 1 = none :=
  ⟨rfl, rfl, rfl⟩

/-- C1 (amended): `SetStats` returns the first lookup failure to the
caller, but its mutation is not all-or-nothing: the modes looked up
before the first failing mode keep their freshly loaded stats (their
entries are replaced in place), while the failing mode and every later
mode, and every mode outside the tracked range, are unchanged.  When
every lookup over the tracked modes `1 … maxVal - 1` succeeds, no error
is returned and every tracked mode's entry holds the looked-up stats. -/
theorem SetStats_first_failure_partial_update (lookup : Nat → Except String Nat)
    (maxVal : Nat) (m : Nat → Option Nat) :
    ((∀ j, 1 ≤ j → j < maxVal → ∃ s, lookup j = .ok s) →
      (SetStats lookup maxVal m).2 = none ∧
      (∀ j s, 1 ≤ j → j < maxVal → lookup j = .ok s →
        (SetStats lookup maxVal m).1 j = some s) ∧
      (∀ j, j < 1 ∨ maxVal ≤ j → (SetStats lookup maxVal m).1 j = m j)) ∧
    (∀ k e, 1 ≤ k → k < maxVal → lookup k = .error e →
      (∀ j, 1 ≤ j → j < k → ∃ s, lookup j = .ok s) →
      (SetStats lookup maxVal m).2 = some e ∧
      (∀ j s, 1 ≤ j → j < k → lookup j = .ok s →
        (SetStats lookup maxVal m).1 j = some s) ∧
      (∀ j, j < 1 ∨ k ≤ j → (SetStats lookup maxVal m).1 j = m j)) := by
  constructor
  · intro hall
    obtain ⟨h1, h2, h3⟩ := setStatsLoop_all_ok lookup (maxVal - 1) 1 m
      (fun j hj1 hj2 => hall j hj1 (by omega))
    exact ⟨h1, fun j s hj1 hj2 => h2 j s hj1 (by omega),
      fun j hj => h3 j (by omega)⟩
  · intro k e hk1 hk2 he hok
    obtain ⟨h1, h2, h3⟩ := setStatsLoop_first_error lookup (maxVal - 1) 1 m k e
      hk1 (by omega) he hok
    exact ⟨h1, h2, fun j hj => h3 j (by omega)⟩

/-- C1 (amended) witness: a lookup failing immediately at mode 1 with
`maxVal = 3` makes `SetStats` return the error unchanged. -/
theorem SetStats_first_failure_partial_update_witness :
    (SetStats (fun _ => .error "boom") 3 (fun _ => none)).2 = some "boom" :=
  ((SetStats_first_failure_partial_update (fun _ => .error "boom") 3 (fun _ => none)).2
    1 "boom" le_rfl (by omega) rfl (fun j h1 h2 => absurd h2 (by omega))).1

/-! ### `User.IsMuted` (sessions/user.go) -/

/-- `IsMuted` compares the stored mute-expiry timestamp with the current
time: `u.Info.MuteEndTime > time.Now().UnixMilli()`.  Timestamps are
modelled as `Int` (Go `int64`); the function is a pure comparison and
performs no external call. -/
def IsMuted (muteEndTime now : Int) : Bool :=
  decide (muteEndTime > now)

/-- C4: `IsMuted` returns true iff the mute-expiry timestamp is strictly
greater than the current time; in particular when the expiry equals the
current time it returns false. -/
theorem IsMuted_iff_strictly_greater (muteEndTime now : Int) :
    (IsMuted muteEndTime now = true ↔ muteEndTime > now) ∧
    IsMuted now now = false := by
  constructor
  · simp [IsMuted]
  · simp [IsMuted]

/-! ### Redis key builders (sessions/user.go and multiplayer/redis.go)

`fmt.Sprintf` with `%v` prints a Go string verbatim and an integer in
decimal, so each key builder is string concatenation; numeric ids are
modelled as `Int` and printed with `toString`. -/

/-- Key for a user's session token: `fmt.Sprintf("quaver:server:session:%v", u.token)`. -/
def getRedisSessionKey (token : String) : String :=
  "quaver:server:session:" ++ token

/-- Key for a user's client status: `fmt.Sprintf("quaver:server:user_status:%v", u.Info.Id)`. -/
def getRedisClientStatusKey (userId : Int) : String :=
  "quaver:server:user_status:" ++ toString userId

/-- Key for a game's match settings: `fmt.Sprintf("quaver:server:multiplayer:%v", game.Data.Id)`. -/
def getMatchSettingsRedisKey (gameId : Int) : String :=
  "quaver:server:multiplayer:" ++ toString gameId

/-- Key for one player of a game:
`fmt.Sprintf("quaver:server:multiplayer:%v:player:%v", game.Data.Id, id)`. -/
def getPlayerRedisKey (gameId userId : Int) : String :=
  "quaver:server:multiplayer:" ++ toString gameId ++ ":player:" ++ toString userId

theorem stringAppendAssoc (a b c : String) : a ++ b ++ c = a ++ (b ++ c) := by
  cases a
  cases b
  cases c
  show String.mk _ = String.mk _
  simp [String.append, List.append_assoc]

/-- C5, counterexample: the session key for a concrete token is not the
claimed `server:session:<token>` — every key carries a leading `quaver`
namespace segment. -/
theorem getRedisSessionKey_not_unprefixed :
    getRedisSessionKey "abc" ≠ "server:session:abc" ∧
    getRedisSessionKey "abc" = "quaver:server:session:abc" := by
  constructor
  · decide
  · rfl

/-- C5 (amended): every cache key follows the colon-delimited scheme with
a leading `quaver` namespace segment: `quaver:server:session:<token>`,
`quaver:server:user_status:<userId>`, `quaver:server:multiplayer:<roomId>`
and `quaver:server:multiplayer:<roomId>:player:<userId>`. -/
theorem redisKeys_colon_scheme (token : String) (userId roomId playerId : Int) :
    getRedisSessionKey token
        = String.intercalate ":" ["quaver", "server", "session", token] ∧
    getRedisClientStatusKey userId
        = String.intercalate ":" ["quaver", "server", "user_status", toString userId] ∧
    getMatchSettingsRedisKey roomId
        = String.intercalate ":" ["quaver", "server", "multiplayer", toString roomId] ∧
    getPlayerRedisKey roomId playerId
        = String.intercalate ":"
            ["quaver", "server", "multiplayer", toString roomId, "player", toString playerId] := by
  refine ⟨rfl, rfl, rfl, ?_⟩
  show "quaver:server:multiplayer:" ++ toString roomId ++ ":player:" ++ toString playerId = _
  rw [show (":player:" : String) = ":" ++ "player" ++ ":" from rfl]
  simp only [String.intercalate, String.intercalate.go, stringAppendAssoc]
  rfl

/-! ### `User.SetClientStatus` / `User.GetClientStatus` (sessions/user.go) -/

/-- The client status object (`objects.ClientStatus`). -/
structure ClientStatus where
  status : Int
  mapId : Int
  mapMd5 : String
  gameMode : Int
  content : String
  modifiers : Int
deriving DecidableEq, Repr

/-- Events performed by `SetClientStatus`, in order: it acquires the
session mutex, assigns the status field, releases the mutex, then calls
`addUserClientStatusToRedis` (the Redis write, whose success is the
boolean of `cacheWrite`), and logs the error when that call fails. -/
inductive SessionEvent where
  | lockAcquired
  | statusAssigned (s : ClientStatus)
  | lockReleased
  | cacheWrite (ok : Bool)
  | errorLogged
deriving DecidableEq, Repr

/-- `SetClientStatus` replaces the session's status with the new value
under the mutex, unlocks, and only then attempts the Redis propagation;
a propagation failure is logged.  It returns the session's status field
after the call together with the trace of events performed.  `cacheOk`
abstracts whether the external-cache write succeeds. -/
def SetClientStatus (old new : ClientStatus) (cacheOk : Bool) :
    ClientStatus × List SessionEvent :=
  (new,
    [SessionEvent.lockAcquired, SessionEvent.statusAssigned new,
      SessionEvent.lockReleased, SessionEvent.cacheWrite cacheOk]
      ++ if cacheOk then [] else [SessionEvent.errorLogged])

/-- `GetClientStatus` returns the session's current status field. -/
def GetClientStatus (status : ClientStatus) : ClientStatus :=
  status

/-- C6: `SetClientStatus` replaces the status with the new value — a
subsequent `GetClientStatus` returns the newly set status regardless of
whether the cache propagation succeeded; the mutex is released before the
cache write is attempted (the `lockReleased` event strictly precedes the
`cacheWrite` event in the trace, with the status assignment before the
release); and a propagation failure is logged while a success logs
nothing. -/
theorem SetClientStatus_replaces_and_propagates (old new : ClientStatus) (cacheOk : Bool) :
    (SetClientStatus old new cacheOk).1 = new ∧
    GetClientStatus (SetClientStatus old new cacheOk).1 = new ∧
    (∃ pre post,
      (SetClientStatus old new cacheOk).2 = pre ++ SessionEvent.lockReleased :: post ∧
      SessionEvent.statusAssigned new ∈ pre ∧
      SessionEvent.cacheWrite cacheOk ∈ post) ∧
    (cacheOk = false → SessionEvent.errorLogged ∈ (SetClientStatus old new cacheOk).2) ∧
    (cacheOk = true → SessionEvent.errorLogged ∉ (SetClientStatus old new cacheOk).2) := by
  refine ⟨rfl, rfl, ?_, ?_, ?_⟩
  · refine ⟨[SessionEvent.lockAcquired, SessionEvent.statusAssigned new],
      SessionEvent.cacheWrite cacheOk :: (if cacheOk then [] else [SessionEvent.errorLogged]),
      ?_, by simp, by simp⟩
    simp [SetClientStatus]
  · intro h
    simp [SetClientStatus, h]
  · intro h
    simp [SetClientStatus, h]

/-- C6 witness: a concrete status replacement with a failing cache write:
the local mutation stands and the failure is logged. -/
theorem SetClientStatus_replaces_and_propagates_witness :
    GetClientStatus (SetClientStatus ⟨0, -1, "", 1, "", 0⟩ ⟨2, 5, "md5", 1, "playing", 0⟩ false).1
        = ⟨2, 5, "md5", 1, "playing", 0⟩ ∧
    SessionEvent.errorLogged
        ∈ (SetClientStatus ⟨0, -1, "", 1, "", 0⟩ ⟨2, 5, "md5", 1, "playing", 0⟩ false).2 :=
  ⟨(SetClientStatus_replaces_and_propagates ⟨0, -1, "", 1, "", 0⟩
      ⟨2, 5, "md5", 1, "playing", 0⟩ false).2.1,
    (SetClientStatus_replaces_and_propagates ⟨0, -1, "", 1, "", 0⟩
      ⟨2, 5, "md5", 1, "playing", 0⟩ false).2.2.2.1 rfl⟩

/-! ### The Redis hash model (multiplayer/redis.go)

Redis is modelled as an association list from keys to hashes, a hash
being an association list from field names to string values.  `HSet`
upserts every given field into the hash at a key (Redis merge
semantics); `Del` removes the whole record at a key.  Whether a given
Redis call fails is passed in as an explicit boolean. -/

/-- A Redis hash: field name to value. -/
abbrev Hash := List (String × String)

/-- The Redis store: key to hash. -/
abbrev Cache := List (String × Hash)

/-- Look up one field of a hash. -/
def lookupField : Hash → String → Option String
  | [], _ => none
  | (g, w) :: rest, f => if g = f then some w else lookupField rest f

/-- Set one field of a hash, replacing an existing binding in place or
appending a new one. -/
def setField : Hash → String → String → Hash
  | [], f, v => [(f, v)]
  | (g, w) :: rest, f, v => if g = f then (f, v) :: rest else (g, w) :: setField rest f v

/-- Upsert a list of field/value pairs into a hash, left to right. -/
def hsetFields (h : Hash) : List (String × String) → Hash
  | [] => h
  | (f, v) :: rest => hsetFields (setField h f v) rest

/-- `HSet key fields`: upsert the fields into the hash stored at `key`,
creating the record when absent. -/
def cacheHSet : Cache → String → List (String × String) → Cache
  | [], key, fs => [(key, hsetFields [] fs)]
  | (k, h) :: rest, key, fs =>
    if k = key then (k, hsetFields h fs) :: rest else (k, h) :: cacheHSet rest key fs

/-- `Del key`: remove the whole record at `key`. -/
def cacheDel (c : Cache) (key : String) : Cache :=
  c.filter fun kv => kv.1 ≠ key

/-- Look up the record stored at a key. -/
def cacheLookup : Cache → String → Option Hash
  | [], _ => none
  | (k, h) :: rest, key => if k = key then some h else cacheLookup rest key

/-- Look up one field of the record stored at a key. -/
def hget (c : Cache) (key field : String) : Option String :=
  match cacheLookup c key with
  | none => none
  | some h => lookupField h field

theorem lookupField_setField_self (h : Hash) (f v : String) :
    lookupField (setField h f v) f = some v := by
  induction h with
  | nil => simp [setField, lookupField]
  | cons p rest ih =>
    obtain ⟨g, w⟩ := p
    by_cases hg : g = f <;> simp [setField, lookupField, hg, ih]

theorem lookupField_setField_other (h : Hash) (f g v : String) (hne : g ≠ f) :
    lookupField (setField h f v) g = lookupField h g := by
  have hne' : ¬f = g := fun hh => hne hh.symm
  induction h with
  | nil => simp [setField, lookupField, hne']
  | cons p rest ih =>
    obtain ⟨g', w⟩ := p
    by_cases hg : g' = f
    · subst hg
      simp [setField, lookupField, hne']
    · simp [setField, if_neg hg, lookupField, ih]

theorem cacheLookup_cacheHSet_self (c : Cache) (key : String) (fs : List (String × String)) :
    ∃ h, cacheLookup (cacheHSet c key fs) key = some (hsetFields h fs) := by
  induction c with
  | nil => exact ⟨[], by simp [cacheHSet, cacheLookup]⟩
  | cons p rest ih =>
    obtain ⟨k, h⟩ := p
    by_cases hk : k = key
    · exact ⟨h, by simp [cacheHSet, cacheLookup, hk]⟩
    · obtain ⟨h', hh⟩ := ih
      exact ⟨h', by simp [cacheHSet, cacheLookup, hk, hh]⟩

theorem cacheLookup_cacheDel (c : Cache) (key : String) :
    cacheLookup (cacheDel c key) key = none := by
  induction c with
  | nil => rfl
  | cons p rest ih =>
    obtain ⟨k, h⟩ := p
    by_cases hk : k = key <;> simp [cacheDel, cacheLookup, hk] at ih ⊢ <;>
      simpa [cacheDel, hk] using ih

/-! ### Multiplayer game data and settings caching (multiplayer/redis.go) -/

/-- Modelled from the spec: `utils.BoolToInt` (not under src/) encodes a
boolean as `0`/`1`. -/
def BoolToInt (b : Bool) : Int :=
  if b then 1 else 0

/-- Modelled from the spec: `utils.Includes` (not under src/) tests
membership of an id in a list — the spec derives the "has map" flag "as
NOT-in a without-map set". -/
def Includes (l : List Int) (x : Int) : Bool :=
  l.contains x

/-- Modelled from the spec: `utils.Find` (not under src/) returns the
first element of a list satisfying the predicate, or an error when there
is none (per-player wins and modifiers are "keyed by user id"). -/
def Find (l : List (Int × Int)) (p : Int × Int → Bool) : Except String (Int × Int) :=
  match l.find? p with
  | some x => .ok x
  | none => .error "unable to find element in slice"

/-- The data of one multiplayer game (`objects.MultiplayerGameData`
fields used by the Redis caching layer).  Per-player wins and modifiers
are pairs of (user id, value), mirroring
`objects.MultiplayerGamePlayerWins` and `objects.MultiplayerGamePlayerMods`. -/
structure GameData where
  id : Int
  name : String
  hasPassword : Bool
  maxPlayers : Int
  mapMD5 : String
  mapId : Int
  mapsetId : Int
  mapName : String
  hostId : Int
  ruleset : Int
  isHostRotation : Bool
  mapGameMode : Int
  mapDifficultyRating : Float
  inProgress : Bool
  globalModifiers : Int
  freeModType : Int
  isTournamentMode : Bool
  playerWins : List (Int × Int)
  playerModifiers : List (Int × Int)
  playersReady : List Int
  playersWithoutMap : List Int

/-- The flat field/value list `cacheMatchSettings` passes to `HSet`,
translated entry for entry from the source; `fmtFloat` stands for
`strconv.FormatFloat(_, 'f', -1, 64)`. -/
def cacheMatchSettingsList (fmtFloat : Float → String) (g : GameData) : List String :=
  ["n", g.name,
   "pw", toString (BoolToInt g.hasPassword),
   "mp", toString g.maxPlayers,
   "md5", g.mapMD5,
   "mid", toString g.mapId,
   "msid", toString g.mapsetId,
   "map", g.mapName,
   "host", toString g.hostId,
   "r", toString g.ruleset,
   "hr", toString (BoolToInt g.isHostRotation),
   "gm", toString g.mapGameMode,
   "d", fmtFloat g.mapDifficultyRating,
   "inp", toString (BoolToInt g.inProgress),
   "m", toString g.globalModifiers,
   "fm", toString g.freeModType,
   "trn", toString (BoolToInt g.isTournamentMode)]

/-- Pair up a flat `field, value, field, value, …` list the way Redis
`HSet` interprets it. -/
def toFieldPairs : List String → List (String × String)
  | f :: v :: rest => (f, v) :: toFieldPairs rest
  | [] => []
  | [_] => []

/-- `cacheMatchSettings` builds the settings list and issues one `HSet`
at the match-settings key; a Redis failure (`hsetFails`) is logged and
the function returns. -/
def cacheMatchSettings (fmtFloat : Float → String) (c : Cache) (hsetFails : Bool)
    (g : GameData) : Cache × List String :=
  let settings := cacheMatchSettingsList fmtFloat g
  if hsetFails then
    (c, ["Failed to cache match settings in redis"])
  else
    (cacheHSet c (getMatchSettingsRedisKey g.id) (toFieldPairs settings), [])

/-- Modelled from the spec: the published settings record — "name,
has-password(bool as 0/1), max-players, map checksum, map id, mapset id,
map display name, host user id, ruleset, host-rotation(bool), map
game-mode, difficulty rating (decimal text), in-progress(bool), global
modifiers (integer), free-mod type, tournament-mode(bool)" — each value
derived from the room's current settings. -/
def settingsRecordSpec (fmtFloat : Float → String) (g : GameData) : List (String × String) :=
  [("n", g.name),
   ("pw", if g.hasPassword then "1" else "0"),
   ("mp", toString g.maxPlayers),
   ("md5", g.mapMD5),
   ("mid", toString g.mapId),
   ("msid", toString g.mapsetId),
   ("map", g.mapName),
   ("host", toString g.hostId),
   ("r", toString g.ruleset),
   ("hr", if g.isHostRotation then "1" else "0"),
   ("gm", toString g.mapGameMode),
   ("d", fmtFloat g.mapDifficultyRating),
   ("inp", if g.inProgress then "1" else "0"),
   ("m", toString g.globalModifiers),
   ("fm", toString g.freeModType),
   ("trn", if g.isTournamentMode then "1" else "0")]

theorem toString_BoolToInt (b : Bool) :
    toString (BoolToInt b) = if b then "1" else "0" := by
  cases b <;> rfl

/-- C7: a successful `cacheMatchSettings` performs exactly one `HSet` at
the room's settings key whose field/value pairs are precisely the
complete published settings record (all sixteen fields, each value
derived from the room's current settings). -/
theorem cacheMatchSettings_writes_full_record (fmtFloat : Float → String)
    (c : Cache) (g : GameData) :
    toFieldPairs (cacheMatchSettingsList fmtFloat g) = settingsRecordSpec fmtFloat g ∧
    cacheMatchSettings fmtFloat c false g
      = (cacheHSet c (getMatchSettingsRedisKey g.id) (settingsRecordSpec fmtFloat g), []) := by
  have hpairs : toFieldPairs (cacheMatchSettingsList fmtFloat g)
      = settingsRecordSpec fmtFloat g := by
    simp [cacheMatchSettingsList, settingsRecordSpec, toFieldPairs, toString_BoolToInt]
  exact ⟨hpairs, by simp [cacheMatchSettings, hpairs]⟩

/-! ### Player caching (multiplayer/redis.go) -/

/-- The fields of `db.User` read by `cachePlayer`. -/
structure UserInfo where
  id : Int
  username : String
  steamId : String
  avatarUrl : String
  country : String
deriving DecidableEq, Repr

/-- The field/value pairs `cachePlayer` stores for one player, translated
entry for entry from the source: wins and modifiers are looked up by id
through `Find` with a zero default, the ready flag `r` is
`BoolToInt(Includes(PlayersReady, id))` and the has-map flag `hm` is
`BoolToInt(!Includes(PlayersWithoutMap, id))`. -/
def playerRecord (user : UserInfo) (g : GameData) (id : Int) : List (String × String) :=
  let wins := match Find g.playerWins (fun x => x.1 == id) with
    | .ok w => w.2
    | .error _ => 0
  let mods := match Find g.playerModifiers (fun x => x.1 == id) with
    | .ok w => w.2
    | .error _ => 0
  [("id", toString user.id),
   ("u", user.username),
   ("sid", user.steamId),
   ("a", user.avatarUrl),
   ("c", user.country),
   ("w", toString wins),
   ("m", toString mods),
   ("r", toString (BoolToInt (Includes g.playersReady id))),
   ("hm", toString (BoolToInt (!Includes g.playersWithoutMap id)))]

/-- `cachePlayer` looks the user session up by id (`sessions.GetUserById`
is an external collaborator passed as `getUserById`) and returns at once
when there is none; otherwise it issues one `HSet` of the player record
at the player's key, logging a Redis failure (`hsetFails`). -/
def cachePlayer (getUserById : Int → Option UserInfo) (c : Cache) (hsetFails : Bool)
    (g : GameData) (id : Int) : Cache × List String :=
  match getUserById id with
  | none => (c, [])
  | some user =>
    if hsetFails then
      (c, ["Failed to cache multiplayer player in redis"])
    else
      (cacheHSet c (getPlayerRedisKey g.id id) (playerRecord user g id), [])

/-- `deleteCachedPlayer` issues one `Del` of the player's key, logging a
Redis failure (`delFails`). -/
def deleteCachedPlayer (c : Cache) (delFails : Bool) (g : GameData) (userId : Int) :
    Cache × List String :=
  if delFails then
    (c, ["Failed to remove multiplayer player in redis"])
  else
    (cacheDel c (getPlayerRedisKey g.id userId), [])

theorem lookupField_playerRecord_r (h : Hash) (user : UserInfo) (g : GameData) (id : Int) :
    lookupField (hsetFields h (playerRecord user g id)) "r"
      = some (toString (BoolToInt (Includes g.playersReady id))) := by
  simp only [playerRecord, hsetFields]
  rw [lookupField_setField_other _ _ _ _ (by decide), lookupField_setField_self]

theorem lookupField_playerRecord_hm (h : Hash) (user : UserInfo) (g : GameData) (id : Int) :
    lookupField (hsetFields h (playerRecord user g id)) "hm"
      = some (toString (BoolToInt (!Includes g.playersWithoutMap id))) := by
  simp only [playerRecord, hsetFields]
  rw [lookupField_setField_self]

/-- C8, counterexample: the per-player key for room 42 and player 7 is
not the claimed `server:multiplayer:42:player:7` — the key carries a
leading `quaver` namespace segment, so the record lands under
`quaver:server:multiplayer:42:player:7`. -/
theorem getPlayerRedisKey_not_unprefixed :
    getPlayerRedisKey 42 7 ≠ "server:multiplayer:42:player:7" ∧
    getPlayerRedisKey 42 7 = "quaver:server:multiplayer:42:player:7" := by
  constructor
  · decide
  · rfl

/-- C8 (amended): for every room and member user id with a live session,
after a successful `cachePlayer` the record at the player's key
`quaver:server:multiplayer:<roomId>:player:<userId>` has field `r` equal
to `"1"` exactly when the id is in the room's ready list, and field `hm`
equal to `"1"` exactly when the id is not in the room's without-map
list. -/
theorem cachePlayer_ready_and_hasmap (getUserById : Int → Option UserInfo)
    (c : Cache) (g : GameData) (id : Int) (user : UserInfo)
    (hu : getUserById id = some user) :
    (hget (cachePlayer getUserById c false g id).1 (getPlayerRedisKey g.id id) "r"
        = some "1" ↔ id ∈ g.playersReady) ∧
    (hget (cachePlayer getUserById c false g id).1 (getPlayerRedisKey g.id id) "hm"
        = some "1" ↔ id ∉ g.playersWithoutMap) := by
  obtain ⟨h, hh⟩ := cacheLookup_cacheHSet_self c (getPlayerRedisKey g.id id)
    (playerRecord user g id)
  have hget_eq : ∀ f, hget (cachePlayer getUserById c false g id).1
      (getPlayerRedisKey g.id id) f
        = lookupField (hsetFields h (playerRecord user g id)) f := by
    intro f
    simp [cachePlayer, hu, hget, hh]
  constructor
  · rw [hget_eq, lookupField_playerRecord_r]
    by_cases hr : id ∈ g.playersReady <;>
      simp [Includes, BoolToInt, hr] <;> decide
  · rw [hget_eq, lookupField_playerRecord_hm]
    by_cases hm : id ∈ g.playersWithoutMap <;>
      simp [Includes, BoolToInt, hm] <;> decide

/-- A concrete room for the witnesses: room 42, max players 8, player 7
ready and in possession of the map. -/
def roomExample : GameData :=
  { id := 42, name := "room", hasPassword := false, maxPlayers := 8,
    mapMD5 := "md5", mapId := 1, mapsetId := 1, mapName := "map",
    hostId := 7, ruleset := 0, isHostRotation := false, mapGameMode := 1,
    mapDifficultyRating := 0, inProgress := false, globalModifiers := 0,
    freeModType := 0, isTournamentMode := false,
    playerWins := [(7, 0)], playerModifiers := [(7, 0)],
    playersReady := [7], playersWithoutMap := [] }

/-- A concrete user session for the witnesses. -/
def userExample : UserInfo :=
  { id := 7, username := "player7", steamId := "s7", avatarUrl := "a7", country := "US" }

/-- C8 (amended) witness: marking player 7 of room 42 ready makes field
`r` of key `quaver:server:multiplayer:42:player:7` equal `"1"`. -/
theorem cachePlayer_ready_and_hasmap_witness :
    hget (cachePlayer (fun _ => some userExample) [] false roomExample 7).1
      (getPlayerRedisKey 42 7) "r" = some "1" :=
  (cachePlayer_ready_and_hasmap (fun _ => some userExample) [] roomExample 7
    userExample rfl).1.mpr (by decide)

/-- C9: a successful `deleteCachedPlayer` removes the whole record at the
player's key — a subsequent lookup of that key returns absent — and logs
nothing; a failing delete leaves the cache as it was, logs the failure
and still returns normally to the caller (no error is propagated). -/
theorem deleteCachedPlayer_removes_record (c : Cache) (g : GameData) (userId : Int) :
    (cacheLookup (deleteCachedPlayer c false g userId).1 (getPlayerRedisKey g.id userId)
        = none ∧
      (deleteCachedPlayer c false g userId).2 = []) ∧
    deleteCachedPlayer c true g userId
        = (c, ["Failed to remove multiplayer player in redis"]) := by
  refine ⟨⟨?_, rfl⟩, rfl⟩
  simp [deleteCachedPlayer, cacheLookup_cacheDel]

/-- C10: when no live session exists for the user id, `cachePlayer`
returns without writing anything: the cache is unchanged and nothing is
logged. -/
theorem cachePlayer_no_session_no_write (getUserById : Int → Option UserInfo)
    (c : Cache) (hsetFails : Bool) (g : GameData) (id : Int)
    (h : getUserById id = none) :
    cachePlayer getUserById c hsetFails g id = (c, []) := by
  simp [cachePlayer, h]

/-- C10 witness: with no session for player 7, `cachePlayer` leaves an
empty cache empty and logs nothing. -/
theorem cachePlayer_no_session_no_write_witness :
    cachePlayer (fun _ => none) [] false roomExample 7 = ([], []) :=
  cachePlayer_no_session_no_write (fun _ => none) [] false roomExample 7 rfl

end Z
